import Mathlib

/-!
Verification development for the sigtop JSON export and quote-chain resolver.

The Go sources embedded here are:
- signal/quote.go: the quote resolver (`parseQuoteJSON`, `parseQuoteJSONWithDepth`,
  `findQuoteOfMessage`) together with its JSON input types;
- the JSON exporter (`jsonWriteMessages`, `convertQuote`, `convertAttachments`,
  `formatTime`, `formatGroupV2ChangeAction`) and its output record types.

Machine integers (Go int, int64) are embedded as Lean Int; no arithmetic here
can overflow 64 bits on the inputs the program constructs, and the claims under
study do not depend on wrap-around behaviour.
-/

namespace Sigtop

/-- Recipient as consumed by this core: the one capability used is the
display name (Go method DetailedDisplayName, resolved externally). -/
structure Recipient where
  DetailedDisplayName : String
deriving DecidableEq

/-- Modelled from the spec: mention annotations are copied verbatim by the
resolver; their internal structure (mentionJSON) is not in the provided
sources and is not inspected by any code under study. -/
structure MentionJSON where
  raw : String
deriving DecidableEq

/-- Modelled from the spec: a resolved mention annotation (copied verbatim). -/
structure Mention where
  raw : String
deriving DecidableEq

/-- MessageBody from the signal package: text plus mention annotations. -/
structure MessageBody where
  Text : String
  Mentions : List Mention
deriving DecidableEq

/-- quoteAttachmentJSON from signal/quote.go. -/
structure QuoteAttachmentJSON where
  ContentType : String
  FileName : String
deriving DecidableEq

/-- quoteJSON from signal/quote.go.  The ID field is a Go json.Number
pointer: `none` models JSON null or a missing field, `some s` holds the
number's decimal text (a json.Number is a string whether the JSON encoded
it as a native number or as a numeric string). -/
structure QuoteJSON where
  Attachments : List QuoteAttachmentJSON
  Author : String
  AuthorUUID : String
  AuthorACI : String
  Mentions : List MentionJSON
  ID : Option String
  Text : String
deriving DecidableEq

/-- QuoteAttachment from signal/quote.go. -/
structure QuoteAttachment where
  FileName : String
  ContentType : String
deriving DecidableEq

/-- Quote from signal/quote.go.  Recipient is a Go pointer, hence Option;
QuotedQuote is the one link of the quote chain. -/
inductive Quote where
  | mk (recipient : Option Recipient) (timeSent : Int) (body : MessageBody)
      (attachments : List QuoteAttachment) (quotedQuote : Option Quote)

/-- Projection: the resolved author of a quote. -/
def Quote.recipient : Quote → Option Recipient
  | .mk r _ _ _ _ => r

/-- Projection: the quoted message's original send timestamp. -/
def Quote.timeSent : Quote → Int
  | .mk _ t _ _ _ => t

/-- Projection: the quote body snapshot. -/
def Quote.body : Quote → MessageBody
  | .mk _ _ b _ _ => b

/-- Projection: the quote's lightweight attachment descriptors. -/
def Quote.attachments : Quote → List QuoteAttachment
  | .mk _ _ _ a _ => a

/-- Projection: the quoted message's own quote (next chain link). -/
def Quote.quotedQuote : Quote → Option Quote
  | .mk _ _ _ _ q => q

/-- Modelled from the spec: the distinguished "long message" content type
(constant LongTextType of the signal package, not in the provided sources);
attachments of this type are excluded from quotes. -/
def LongTextType : String := "text/x-signal-plain"

/-- Outcome of the single-row store lookup performed by findQuoteOfMessage:
a database error, no row at that timestamp, a row whose json column is the
empty string, a row whose json does not unmarshal, a row whose message has
no quote field, or a row carrying a quote payload. -/
inductive StoreResult where
  | dbError (e : String)
  | notFound
  | emptyText
  | badJSON
  | noQuote
  | withQuote (q : QuoteJSON)
deriving DecidableEq

/-- The Context capabilities consumed by the resolver.  recipientFromACI,
recipientFromPhone and parseMentionJSON are methods of the signal Context
whose bodies are not in the provided sources; they are modelled from the
spec as external capabilities that either fail or return a resolved value
(the spec states a Recipient reference is never optional once resolution
succeeds).  The store field models the messages table keyed by sent_at. -/
structure Context where
  recipientFromACI : String → Except String Recipient
  recipientFromPhone : String → Except String Recipient
  parseMentionJSON : List MentionJSON → Except String (List Mention)
  store : Int → StoreResult

/-- Decimal digits to a natural number; fails on any non-digit. -/
def digitsToNat : List Char → Option Nat → Option Nat
  | [], acc => acc
  | c :: rest, acc =>
    match acc with
    | none => none
    | some n => if c.isDigit then digitsToNat rest (some (n * 10 + (c.toNat - 48))) else none

/-- Go json.Number.Int64, i.e. strconv.ParseInt(s, 10, 64): an optional
sign followed by at least one decimal digit, with a 64-bit range check.
Anything else (empty, a fraction such as "3.5", stray characters,
out-of-range magnitudes) fails. -/
def parseGoInt64 (s : String) : Option Int :=
  match s.data with
  | [] => none
  | c :: rest =>
    let signed : Bool × List Char :=
      if c = '-' then (true, rest) else if c = '+' then (false, rest) else (false, c :: rest)
    match signed.2 with
    | [] => none
    | ds =>
      match digitsToNat ds (some 0) with
      | none => none
      | some n =>
        if signed.1 then
          if n ≤ 2 ^ 63 then some (-(n : Int)) else none
        else
          if n ≤ 2 ^ 63 - 1 then some (n : Int) else none

/-- Lines 77-81 of signal/quote.go: a nil ID yields the sentinel -1; a
present ID must parse as a 64-bit integer or the quote fails. -/
def parseTimeSent : Option String → Except String Int
  | none => .ok (-1)
  | some s =>
    match parseGoInt64 s with
    | some v => .ok v
    | none => .error "cannot parse quote ID"

/-- Lines 83-98 of signal/quote.go: the author switch, trying AuthorACI,
then AuthorUUID (both via recipientFromACI), then the legacy phone-number
Author field; an empty triple is the "quote without author" failure. -/
def resolveAuthor (ctx : Context) (j : QuoteJSON) : Except String Recipient :=
  if j.AuthorACI ≠ "" then ctx.recipientFromACI j.AuthorACI
  else if j.AuthorUUID ≠ "" then ctx.recipientFromACI j.AuthorUUID
  else if j.Author ≠ "" then ctx.recipientFromPhone j.Author
  else .error "quote without author"

/-- Lines 106-116 of signal/quote.go: copy quote attachments, skipping the
long-message content type. -/
def convertQuoteAttachmentsJSON (atts : List QuoteAttachmentJSON) : List QuoteAttachment :=
  (atts.filter fun a => a.ContentType ≠ LongTextType).map
    fun a => { FileName := a.FileName, ContentType := a.ContentType }

/-- Lines 120-125 of signal/quote.go: an error from the chain step is
non-fatal and degrades to a nil chain link. -/
def chainResult : Except String (Option Quote) → Option Quote
  | .error _ => none
  | .ok r => r

/-- The fixed recursion limit of parseQuoteJSONWithDepth. -/
def maxDepth : Nat := 10

/-- Worker for parseQuoteJSONWithDepth.  The Go function recurses on an
increasing depth counter that is cut off at maxDepth; here the remaining
budget maxDepth - depth is passed as structural fuel so the recursion is
structural.  The depth guard is checked before fuel is consumed, exactly as
in the source, so the fuel-zero fallback inside the chain step is reachable
only in states the Go program never enters (the wrapper below always passes
fuel = maxDepth - depth, and the chain step runs only when depth < maxDepth,
hence with positive fuel).  The chain step inlines the body of
findQuoteOfMessage (the two functions are mutually recursive in the
source); the standalone findQuoteOfMessage below is definitionally the same
dispatch. -/
def parseQuoteAux (ctx : Context) : Nat → Option QuoteJSON → Nat → Except String (Option Quote)
  | _, none, _ => .ok none
  | fuel, some j, depth =>
    if maxDepth ≤ depth then .ok none
    else
      match parseTimeSent j.ID with
      | .error e => .error e
      | .ok ts =>
        match resolveAuthor ctx j with
        | .error e => .error e
        | .ok rpt =>
          match ctx.parseMentionJSON j.Mentions with
          | .error e => .error e
          | .ok mentions =>
            let atts := convertQuoteAttachmentsJSON j.Attachments
            let qq :=
              if 0 < ts then
                match fuel with
                | 0 => none
                | fuel1 + 1 =>
                  chainResult
                    (match ctx.store ts with
                     | .dbError e => .error e
                     | .notFound => .ok none
                     | .emptyText => .ok none
                     | .badJSON => .ok none
                     | .noQuote => .ok none
                     | .withQuote j1 => parseQuoteAux ctx fuel1 (some j1) (depth + 1))
              else none
            .ok (some (.mk (some rpt) ts { Text := j.Text, Mentions := mentions } atts qq))

/-- parseQuoteJSONWithDepth from signal/quote.go. -/
def parseQuoteJSONWithDepth (ctx : Context) (jqte : Option QuoteJSON) (depth : Nat) :
    Except String (Option Quote) :=
  parseQuoteAux ctx (maxDepth - depth) jqte depth

/-- findQuoteOfMessage from signal/quote.go: look the message up by sent
timestamp and resolve its embedded quote payload at the given depth. -/
def findQuoteOfMessage (ctx : Context) (sentAt : Int) (depth : Nat) :
    Except String (Option Quote) :=
  match ctx.store sentAt with
  | .dbError e => .error e
  | .notFound => .ok none
  | .emptyText => .ok none
  | .badJSON => .ok none
  | .noQuote => .ok none
  | .withQuote j => parseQuoteJSONWithDepth ctx (some j) depth

/-- parseQuoteJSON from signal/quote.go: resolution entry point at depth 0. -/
def parseQuoteJSON (ctx : Context) (jqte : Option QuoteJSON) : Except String (Option Quote) :=
  parseQuoteJSONWithDepth ctx jqte 0

/-- Number of Quote nodes along the resolved chain (the quote itself plus
every nested quote reachable through quotedQuote). -/
def chainLen : Quote → Nat
  | .mk _ _ _ _ none => 1
  | .mk _ _ _ _ (some q) => 1 + chainLen q

/-- Every quote along the chain carries a present (non-nil) author. -/
def authorsPresent : Quote → Bool
  | .mk r _ _ _ none => r.isSome
  | .mk r _ _ _ (some q) => r.isSome && authorsPresent q

/-- Success test for the resolver's result. -/
def exceptOk : Except String (Option Quote) → Bool
  | .ok _ => true
  | .error _ => false

/-!
The exporter embedding: signal.Message and friends as consumed by the
JSON export file, the jsonXxx record types with their struct tags, and the
conversion functions.
-/

/-- Attachment of the signal package, as consumed by the exporter
(fields FileName, ContentType, Size; the struct itself is not in the
provided sources). -/
structure Attachment where
  FileName : String
  ContentType : String
  Size : Int
deriving DecidableEq

/-- Reaction of the signal package as consumed by the exporter: an emoji
and the reacting recipient. -/
structure Reaction where
  Emoji : String
  Recipient : Recipient
deriving DecidableEq

/-- GroupV2Change of the signal package as consumed by the exporter:
action type code, optional acting and inviting recipients, a count, and
title and description texts. -/
structure GroupV2Change where
  Typ : String
  Who : Option Recipient
  Inviter : Option Recipient
  Count : Int
  NewTitle : String
  Description : String
deriving DecidableEq

/-- Edit of the signal package as consumed by the exporter: a snapshot of
body, attachments and quote at edit time. -/
structure Edit where
  TimeEdit : Int
  Body : MessageBody
  Attachments : List Attachment
  Quote : Option Quote

/-- Message of the signal package as consumed by the exporter.  Typ is the
Go field Type (a Lean keyword); outgoing models the IsOutgoing method;
Conversation and Source expose only the display-name capability. -/
structure Message where
  Typ : String
  outgoing : Bool
  Source : Option Recipient
  Conversation : Recipient
  TimeSent : Int
  TimeRecv : Int
  Body : MessageBody
  Attachments : List Attachment
  Reactions : List Reaction
  Edits : List Edit
  GroupV2Change : List GroupV2Change
  Quote : Option Quote

/-- jsonAttachment output record (tags: filename omitempty, content_type,
size). -/
structure jsonAttachment where
  FileName : String
  ContentType : String
  Size : Int
deriving DecidableEq

/-- jsonReaction output record (tags: emoji, from). -/
structure jsonReaction where
  Emoji : String
  From : String
deriving DecidableEq

/-- jsonQuote output record (tags: from, sent omitempty, body omitempty,
attachments omitempty, quote omitempty); recursive through the nested
quote pointer. -/
inductive jsonQuote where
  | mk (From Sent Body : String) (attachments : List jsonAttachment)
      (quote : Option jsonQuote)

/-- Projection: the from field of a jsonQuote. -/
def jsonQuote.From : jsonQuote → String
  | .mk f _ _ _ _ => f

/-- Projection: the nested quote of a jsonQuote. -/
def jsonQuote.quote : jsonQuote → Option jsonQuote
  | .mk _ _ _ _ q => q

/-- jsonEdit output record (tags: version, sent omitempty, body omitempty,
attachments omitempty, quote omitempty). -/
structure jsonEdit where
  Version : Int
  Sent : String
  Body : String
  Attachments : List jsonAttachment
  Quote : Option jsonQuote

/-- jsonGroupV2Change output record (tags: action, who omitempty,
invited_by omitempty, count omitempty, new_title omitempty,
description omitempty). -/
structure jsonGroupV2Change where
  Action : String
  Who : String
  InvitedBy : String
  Count : Int
  NewTitle : String
  Description : String
deriving DecidableEq

/-- jsonMessage output record, fields in struct order with their tags:
from, type, sent omitempty, sent_unix omitempty, received omitempty,
body omitempty, attachments omitempty, reactions omitempty,
quote omitempty, edits omitempty, group_changes omitempty. -/
structure jsonMessage where
  From : String
  Typ : String
  Sent : String
  SentUnix : Int
  Received : String
  Body : String
  Attachments : List jsonAttachment
  Reactions : List jsonReaction
  Quote : Option jsonQuote
  Edits : List jsonEdit
  GroupV2Change : List jsonGroupV2Change

/-- jsonExport output record: conversation name and message list. -/
structure jsonExport where
  Conversation : String
  Messages : List jsonMessage

/-- Two-digit zero padding used by the date formatter model. -/
def pad2 (n : Nat) : String :=
  if n < 10 then "0" ++ toString n else toString n

/-- Civil date from days since the Unix epoch (standard era-based
algorithm); used only for positive inputs. -/
def civilFromDays (z0 : Int) : Int × Int × Int :=
  let z := z0 + 719468
  let era := z / 146097
  let doe := z % 146097
  let yoe := (doe - doe / 1460 + doe / 36524 - doe / 146096) / 365
  let doy := doe - (365 * yoe + yoe / 4 - yoe / 100)
  let mp := (5 * doy + 2) / 153
  let d := doy - (153 * mp + 2) / 5 + 1
  let m := if mp < 10 then mp + 3 else mp - 9
  (if m ≤ 2 then yoe + era * 400 + 1 else yoe + era * 400, m, d)

/-- Modelled from the Go standard library: time.UnixMilli(msec) rendered
with layout "2006-01-02 15:04:05" (here in UTC; the local time zone is an
external parameter of the real program, and no claim depends on the exact
digits produced). -/
def formatDateTime (msec : Int) : String :=
  let secs := msec / 1000
  let days := secs / 86400
  let sod := (secs % 86400).toNat
  match civilFromDays days with
  | (y, m, d) =>
    toString y ++ "-" ++ pad2 m.toNat ++ "-" ++ pad2 d.toNat ++ " "
      ++ pad2 (sod / 3600) ++ ":" ++ pad2 (sod / 60 % 60) ++ ":" ++ pad2 (sod % 60)

/-- formatTime from the exporter: empty for non-positive milliseconds,
otherwise the formatted date-time. -/
def formatTime (msec : Int) : String :=
  if msec ≤ 0 then "" else formatDateTime msec

/-- Go dereferences the quote's Recipient pointer unconditionally in
convertQuote; a nil pointer would crash there.  The absent case is mapped
to the empty string (the resolver never produces it, see the author
presence theorem). -/
def derefDisplayName : Option Recipient → String
  | some r => r.DetailedDisplayName
  | none => ""

/-- convertQuote on a present quote (lines 200-222 of the exporter):
author display name, formatted send time for positive timestamps, body
text, size-less attachment descriptors, and the recursively converted
chain link. -/
def convertQuote1 : Quote → jsonQuote
  | .mk r ts body atts none =>
    .mk (derefDisplayName r) (if 0 < ts then formatTime ts else "") body.Text
      (atts.map fun a => { FileName := a.FileName, ContentType := a.ContentType, Size := 0 })
      none
  | .mk r ts body atts (some q) =>
    .mk (derefDisplayName r) (if 0 < ts then formatTime ts else "") body.Text
      (atts.map fun a => { FileName := a.FileName, ContentType := a.ContentType, Size := 0 })
      (some (convertQuote1 q))

/-- convertQuote from the exporter: nil in, nil out. -/
def convertQuote : Option Quote → Option jsonQuote
  | none => none
  | some q => some (convertQuote1 q)

/-- convertAttachments from the exporter (the empty-list early return of
the source is the map of the empty list). -/
def convertAttachments (atts : List Attachment) : List jsonAttachment :=
  atts.map fun a => { FileName := a.FileName, ContentType := a.ContentType, Size := a.Size }

/-- formatGroupV2ChangeAction from the exporter: the closed action-code
lookup table with verbatim fallback. -/
def formatGroupV2ChangeAction (actionType : String) : String :=
  if actionType = "member-add" then "Member added"
  else if actionType = "member-remove" then "Member removed"
  else if actionType = "member-add-from-invite" then "Member joined from invite"
  else if actionType = "member-add-from-link" then "Member joined via link"
  else if actionType = "pending-add-many" then "Invitations sent"
  else if actionType = "admin-approval-add-one" then "Requested to join"
  else if actionType = "title" then "Title changed"
  else if actionType = "description" then "Description changed"
  else if actionType = "avatar" then "Avatar changed"
  else if actionType = "access-attributes" then "Group settings changed"
  else if actionType = "announcements-only" then "Announcements only mode changed"
  else if actionType = "access-members" then "Member access changed"
  else if actionType = "member-privilege" then "Member privilege changed"
  else actionType

/-- Lines 146-163 of the exporter: one group change record.  The source
initialises Count from gc.Count and then re-assigns zero when gc.Count is
zero (a no-op kept here as the same conditional); omission of a zero count
happens at serialization through the omitempty tag. -/
def convertGroupV2Change (gc : GroupV2Change) : jsonGroupV2Change :=
  { Action := formatGroupV2ChangeAction gc.Typ
    Who := derefDisplayName gc.Who
    InvitedBy := derefDisplayName gc.Inviter
    Count := if gc.Count = 0 then 0 else gc.Count
    NewTitle := gc.NewTitle
    Description := gc.Description }

/-- The edit loop of lines 133-143: the Go range index i gives version
len(msg.Edits) - i; here total is the full list length and idx the running
index. -/
def convertEditsFrom (total : Nat) (idx : Nat) : List Edit → List jsonEdit
  | [] => []
  | e :: rest =>
    { Version := (total : Int) - (idx : Int)
      Sent := formatTime e.TimeEdit
      Body := e.Body.Text
      Attachments := convertAttachments e.Attachments
      Quote := convertQuote e.Quote } :: convertEditsFrom total (idx + 1) rest

/-- All edit records of a message, in the edit list's given order. -/
def convertEdits (edits : List Edit) : List jsonEdit :=
  convertEditsFrom edits.length 0 edits

/-- The per-message body of the export loop (lines 94-166 of the
exporter): sender label, timestamps, body and quote only without edits,
attachments, reactions, edit records, group change records. -/
def convertMessage (selfName : String) (msg : Message) : jsonMessage :=
  { From :=
      if msg.outgoing then selfName
      else
        match msg.Source with
        | some r => r.DetailedDisplayName
        | none => ""
    Typ := msg.Typ
    Sent := if msg.TimeSent ≠ 0 then formatTime msg.TimeSent else ""
    SentUnix := if msg.TimeSent ≠ 0 then msg.TimeSent else 0
    Received := if msg.outgoing = false ∧ msg.TimeRecv ≠ 0 then formatTime msg.TimeRecv else ""
    Body := if msg.Edits.length = 0 then msg.Body.Text else ""
    Quote := if msg.Edits.length = 0 then convertQuote msg.Quote else none
    Attachments := convertAttachments msg.Attachments
    Reactions := msg.Reactions.map fun r => { Emoji := r.Emoji, From := r.Recipient.DetailedDisplayName }
    Edits := convertEdits msg.Edits
    GroupV2Change := msg.GroupV2Change.map convertGroupV2Change }

/-- Lines 88-92 of the exporter: the self sender label, with the fixed
fallback "You" when the self-recipient lookup fails or returns nil. -/
def selfNameOf : Except String (Option Recipient) → String
  | .ok (some r) => r.DetailedDisplayName
  | _ => "You"

/-- The pure model-building part of jsonWriteMessages: conversation name
from the first message (the source indexes msgs[0]; export is invoked on a
non-empty list) and the converted message list. -/
def jsonWriteMessages (selfLookup : Except String (Option Recipient)) (msgs : List Message) :
    jsonExport :=
  { Conversation :=
      match msgs with
      | [] => ""
      | m :: _ => m.Conversation.DetailedDisplayName
    Messages := msgs.map (convertMessage (selfNameOf selfLookup)) }

/-!
The serializer model: Go encoding/json with SetIndent("", "  ") and
SetEscapeHTML(false), restricted to the value shapes the export model
produces (strings, integers, arrays, objects).  The omitempty struct tags
are realised in the field-assembly functions below; a field carrying its
zero value (empty string, zero integer, empty slice, nil pointer) is
dropped from the object.
-/

/-- JSON values as produced by the export model. -/
inductive JValue where
  | str (s : String)
  | num (n : Int)
  | arr (elems : List JValue)
  | obj (fields : List (String × JValue))

/-- True when a character is escaped by the Go JSON encoder also with
HTML escaping disabled: the quotation mark, the backslash, control
characters below 0x20, and the line separators U+2028 and U+2029. -/
def needsEscape (c : Char) : Bool :=
  c = '"' || c = '\\' || decide (c.toNat < 32) || c.toNat = 8232 || c.toNat = 8233

/-- Lowercase hexadecimal digit. -/
def hexDigit (n : Nat) : Char :=
  if n < 10 then Char.ofNat (48 + n) else Char.ofNat (87 + n)

/-- Escaping of one character by the Go JSON encoder with
SetEscapeHTML(false): named escapes for quote, backslash, newline,
carriage return and tab, a \u00xx escape for the remaining control
characters,   and   for the line separators, and every other
character verbatim (in particular the HTML-sensitive characters are left
untouched). -/
def escapeChar (c : Char) : String :=
  if c = '"' then "\\\""
  else if c = '\\' then "\\\\"
  else if c = '\n' then "\\n"
  else if c = '\r' then "\\r"
  else if c = '\t' then "\\t"
  else if c.toNat < 32 then "\\u00" ++ String.mk [hexDigit (c.toNat / 16), hexDigit (c.toNat % 16)]
  else if c.toNat = 8232 then "\\u2028"
  else if c.toNat = 8233 then "\\u2029"
  else String.mk [c]

/-- Concatenated escapes of a character sequence. -/
def escapeChars : List Char → String
  | [] => ""
  | c :: rest => escapeChar c ++ escapeChars rest

/-- A JSON string literal: quoted, with each character escaped as the Go
encoder does. -/
def escapeString (s : String) : String :=
  "\"" ++ escapeChars s.data ++ "\""

/-- The indentation prefix at a nesting level: the configured two-space
unit repeated once per level. -/
def indentOf : Nat → String
  | 0 => ""
  | n + 1 => "  " ++ indentOf n

mutual

/-- Rendering of a JSON value at a nesting level, in the layout produced
by the Go encoder with indentation: empty composites stay compact, each
element of a non-empty composite starts on its own line one level deeper,
and the closing bracket returns to the enclosing level. -/
def render : JValue → Nat → String
  | .str s, _ => escapeString s
  | .num n, _ => toString n
  | .arr [], _ => "[]"
  | .arr (v :: vs), lvl =>
    "[\n" ++ indentOf (lvl + 1) ++ render v (lvl + 1) ++ renderArrRest vs (lvl + 1)
      ++ "\n" ++ indentOf lvl ++ "]"
  | .obj [], _ => "\x7b\x7d"
  | .obj ((k, v) :: fs), lvl =>
    "\x7b\n" ++ indentOf (lvl + 1) ++ escapeString k ++ ": " ++ render v (lvl + 1)
      ++ renderObjRest fs (lvl + 1) ++ "\n" ++ indentOf lvl ++ "\x7d"

/-- Remaining array elements, each preceded by a comma and a fresh line. -/
def renderArrRest : List JValue → Nat → String
  | [], _ => ""
  | v :: vs, lvl => ",\n" ++ indentOf lvl ++ render v lvl ++ renderArrRest vs lvl

/-- Remaining object fields, each preceded by a comma and a fresh line. -/
def renderObjRest : List (String × JValue) → Nat → String
  | [], _ => ""
  | (k, v) :: fs, lvl =>
    ",\n" ++ indentOf lvl ++ escapeString k ++ ": " ++ render v lvl ++ renderObjRest fs lvl

end

/-- Fields of a jsonAttachment with its struct tags applied. -/
def jsonAttachmentFields (a : jsonAttachment) : List (String × JValue) :=
  (if a.FileName = "" then [] else [("filename", .str a.FileName)])
    ++ [("content_type", .str a.ContentType), ("size", .num a.Size)]

/-- Fields of a jsonReaction with its struct tags applied. -/
def jsonReactionFields (r : jsonReaction) : List (String × JValue) :=
  [("emoji", .str r.Emoji), ("from", .str r.From)]

/-- Fields of a jsonQuote with its struct tags applied (recursive through
the nested quote). -/
def jsonQuoteFields : jsonQuote → List (String × JValue)
  | .mk f s b atts q =>
    [("from", .str f)]
      ++ (if s = "" then [] else [("sent", .str s)])
      ++ (if b = "" then [] else [("body", .str b)])
      ++ (if atts.isEmpty then [] else
            [("attachments", .arr (atts.map fun a => .obj (jsonAttachmentFields a)))])
      ++ (match q with
          | none => []
          | some q1 => [("quote", .obj (jsonQuoteFields q1))])

/-- Fields of a jsonEdit with its struct tags applied (version has no
omitempty tag and is always present). -/
def jsonEditFields (e : jsonEdit) : List (String × JValue) :=
  [("version", .num e.Version)]
    ++ (if e.Sent = "" then [] else [("sent", .str e.Sent)])
    ++ (if e.Body = "" then [] else [("body", .str e.Body)])
    ++ (if e.Attachments.isEmpty then [] else
          [("attachments", .arr (e.Attachments.map fun a => .obj (jsonAttachmentFields a)))])
    ++ (match e.Quote with
        | none => []
        | some q => [("quote", .obj (jsonQuoteFields q))])

/-- An omitempty field: dropped when the emptiness condition holds. -/
def optField (c : Prop) [Decidable c] (k : String) (v : JValue) : List (String × JValue) :=
  if c then [] else [(k, v)]

/-- An omitempty pointer field holding a quote: dropped when nil. -/
def quoteField (o : Option jsonQuote) : List (String × JValue) :=
  match o with
  | none => []
  | some q => [("quote", .obj (jsonQuoteFields q))]

/-- Fields of a jsonGroupV2Change with its struct tags applied; in
particular count carries omitempty, so a zero count is dropped. -/
def jsonGroupV2ChangeFields (g : jsonGroupV2Change) : List (String × JValue) :=
  ("action", .str g.Action)
    :: (optField (g.Who = "") "who" (.str g.Who)
      ++ (optField (g.InvitedBy = "") "invited_by" (.str g.InvitedBy)
        ++ (optField (g.Count = 0) "count" (.num g.Count)
          ++ (optField (g.NewTitle = "") "new_title" (.str g.NewTitle)
            ++ optField (g.Description = "") "description" (.str g.Description)))))

/-- Fields of a jsonMessage with its struct tags applied, in struct
order. -/
def jsonMessageFields (m : jsonMessage) : List (String × JValue) :=
  ("from", .str m.From)
    :: ("type", .str m.Typ)
    :: (optField (m.Sent = "") "sent" (.str m.Sent)
      ++ (optField (m.SentUnix = 0) "sent_unix" (.num m.SentUnix)
        ++ (optField (m.Received = "") "received" (.str m.Received)
          ++ (optField (m.Body = "") "body" (.str m.Body)
            ++ (optField m.Attachments.isEmpty "attachments"
                  (.arr (m.Attachments.map fun a => .obj (jsonAttachmentFields a)))
              ++ (optField m.Reactions.isEmpty "reactions"
                    (.arr (m.Reactions.map fun r => .obj (jsonReactionFields r)))
                ++ (quoteField m.Quote
                  ++ (optField m.Edits.isEmpty "edits"
                        (.arr (m.Edits.map fun e => .obj (jsonEditFields e)))
                    ++ optField m.GroupV2Change.isEmpty "group_changes"
                        (.arr (m.GroupV2Change.map fun g =>
                          .obj (jsonGroupV2ChangeFields g)))))))))))

/-- The whole export document as a JSON value (conversation and messages
have no omitempty tags). -/
def jsonExportToJValue (e : jsonExport) : JValue :=
  .obj [("conversation", .str e.Conversation),
        ("messages", .arr (e.Messages.map fun m => .obj (jsonMessageFields m)))]

/-- Encoder.Encode of the export document: the indented rendering followed
by the newline Encode appends. -/
def renderExport (e : jsonExport) : String :=
  render (jsonExportToJValue e) 0 ++ "\n"

/-- First value bound to a key in an assembled field list. -/
def lookupField (fs : List (String × JValue)) (k : String) : Option JValue :=
  match fs with
  | [] => none
  | (k1, v) :: rest => if k1 = k then some v else lookupField rest k

end Sigtop

namespace Sigtop

/-- One-step unfolding of the worker on a present quote. -/
theorem parseQuoteAux_some (ctx : Context) (fuel : Nat) (j : QuoteJSON) (depth : Nat) :
    parseQuoteAux ctx fuel (some j) depth =
    if maxDepth ≤ depth then .ok none
    else
      match parseTimeSent j.ID with
      | .error e => .error e
      | .ok ts =>
        match resolveAuthor ctx j with
        | .error e => .error e
        | .ok rpt =>
          match ctx.parseMentionJSON j.Mentions with
          | .error e => .error e
          | .ok mentions =>
            .ok (some (.mk (some rpt) ts { Text := j.Text, Mentions := mentions }
              (convertQuoteAttachmentsJSON j.Attachments)
              (if 0 < ts then
                match fuel with
                | 0 => none
                | fuel1 + 1 =>
                  chainResult
                    (match ctx.store ts with
                     | .dbError e => .error e
                     | .notFound => .ok none
                     | .emptyText => .ok none
                     | .badJSON => .ok none
                     | .noQuote => .ok none
                     | .withQuote j1 => parseQuoteAux ctx fuel1 (some j1) (depth + 1))
              else none))) := by
  rw [parseQuoteAux]

/-- Inversion of a successful worker run with exhausted fuel: the chain
link is absent. -/
theorem parseQuoteAux_zero_ok_inv (ctx : Context) (j : QuoteJSON) (depth : Nat)
    (q : Quote) (h : parseQuoteAux ctx 0 (some j) depth = .ok (some q)) :
    depth < maxDepth ∧
    ∃ ts rpt mentions,
      parseTimeSent j.ID = .ok ts ∧ resolveAuthor ctx j = .ok rpt ∧
      ctx.parseMentionJSON j.Mentions = .ok mentions ∧
      q = .mk (some rpt) ts { Text := j.Text, Mentions := mentions }
          (convertQuoteAttachmentsJSON j.Attachments) none := by
  rw [parseQuoteAux_some] at h
  by_cases hd : maxDepth ≤ depth
  · simp [hd] at h
  · refine ⟨by omega, ?_⟩
    simp only [if_neg hd] at h
    cases hts : parseTimeSent j.ID with
    | error e => rw [hts] at h; exact absurd h (by simp)
    | ok ts =>
      rw [hts] at h
      cases hra : resolveAuthor ctx j with
      | error e => rw [hra] at h; exact absurd h (by simp)
      | ok rpt =>
        rw [hra] at h
        cases hm : ctx.parseMentionJSON j.Mentions with
        | error e => rw [hm] at h; exact absurd h (by simp)
        | ok mentions =>
          rw [hm] at h
          simp only [Except.ok.injEq, Option.some.injEq] at h
          refine ⟨ts, rpt, mentions, rfl, rfl, rfl, ?_⟩
          rw [← h]
          by_cases hts0 : 0 < ts <;> simp [hts0]

/-- Inversion of a successful worker run with remaining fuel: the chain
link is exactly the degraded result of the chain step at depth + 1. -/
theorem parseQuoteAux_succ_ok_inv (ctx : Context) (fuel1 : Nat) (j : QuoteJSON) (depth : Nat)
    (q : Quote) (h : parseQuoteAux ctx (fuel1 + 1) (some j) depth = .ok (some q)) :
    depth < maxDepth ∧
    ∃ ts rpt mentions,
      parseTimeSent j.ID = .ok ts ∧ resolveAuthor ctx j = .ok rpt ∧
      ctx.parseMentionJSON j.Mentions = .ok mentions ∧
      q = .mk (some rpt) ts { Text := j.Text, Mentions := mentions }
          (convertQuoteAttachmentsJSON j.Attachments)
          (if 0 < ts then
            chainResult
              (match ctx.store ts with
               | .dbError e => .error e
               | .notFound => .ok none
               | .emptyText => .ok none
               | .badJSON => .ok none
               | .noQuote => .ok none
               | .withQuote j1 => parseQuoteAux ctx fuel1 (some j1) (depth + 1))
          else none) := by
  rw [parseQuoteAux_some] at h
  by_cases hd : maxDepth ≤ depth
  · simp [hd] at h
  · refine ⟨by omega, ?_⟩
    simp only [if_neg hd] at h
    cases hts : parseTimeSent j.ID with
    | error e => rw [hts] at h; exact absurd h (by simp)
    | ok ts =>
      rw [hts] at h
      cases hra : resolveAuthor ctx j with
      | error e => rw [hra] at h; exact absurd h (by simp)
      | ok rpt =>
        rw [hra] at h
        cases hm : ctx.parseMentionJSON j.Mentions with
        | error e => rw [hm] at h; exact absurd h (by simp)
        | ok mentions =>
          rw [hm] at h
          simp only [Except.ok.injEq, Option.some.injEq] at h
          exact ⟨ts, rpt, mentions, rfl, rfl, rfl, h.symm⟩

/-- Any successful resolution from remaining budget fuel at a given depth
yields a chain no longer than maxDepth - depth quote nodes. -/
theorem parseQuoteAux_chainLen :
    ∀ (fuel : Nat) (ctx : Context) (jqte : Option QuoteJSON) (depth : Nat) (q : Quote),
      parseQuoteAux ctx fuel jqte depth = .ok (some q) → chainLen q ≤ maxDepth - depth := by
  intro fuel
  induction fuel with
  | zero =>
    intro ctx jqte depth q h
    cases jqte with
    | none => simp [parseQuoteAux] at h
    | some j =>
      obtain ⟨hd, ts, rpt, mentions, -, -, -, hq⟩ := parseQuoteAux_zero_ok_inv _ _ _ _ h
      subst hq
      simp only [chainLen]
      omega
  | succ n ih =>
    intro ctx jqte depth q h
    cases jqte with
    | none => simp [parseQuoteAux] at h
    | some j =>
      obtain ⟨hd, ts, rpt, mentions, -, -, -, hq⟩ := parseQuoteAux_succ_ok_inv _ _ _ _ _ h
      subst hq
      by_cases hts0 : 0 < ts
      · simp only [if_pos hts0]
        cases hst : ctx.store ts with
        | withQuote j1 =>
          cases hp : parseQuoteAux ctx n (some j1) (depth + 1) with
          | error e => simp only [hp, chainResult, chainLen]; omega
          | ok r =>
            cases r with
            | none => simp only [hp, chainResult, chainLen]; omega
            | some q1 =>
              have hq1 := ih ctx (some j1) (depth + 1) q1 hp
              simp only [hp, chainResult, chainLen]
              omega
        | dbError e => simp only [chainResult, chainLen]; omega
        | notFound => simp only [chainResult, chainLen]; omega
        | emptyText => simp only [chainResult, chainLen]; omega
        | badJSON => simp only [chainResult, chainLen]; omega
        | noQuote => simp only [chainResult, chainLen]; omega
      · simp only [if_neg hts0, chainLen]
        omega

/-- Every quote node a successful worker run produces carries a present
author, down the whole chain. -/
theorem parseQuoteAux_authorsPresent :
    ∀ (fuel : Nat) (ctx : Context) (jqte : Option QuoteJSON) (depth : Nat) (q : Quote),
      parseQuoteAux ctx fuel jqte depth = .ok (some q) → authorsPresent q = true := by
  intro fuel
  induction fuel with
  | zero =>
    intro ctx jqte depth q h
    cases jqte with
    | none => simp [parseQuoteAux] at h
    | some j =>
      obtain ⟨hd, ts, rpt, mentions, -, -, -, hq⟩ := parseQuoteAux_zero_ok_inv _ _ _ _ h
      subst hq
      simp [authorsPresent]
  | succ n ih =>
    intro ctx jqte depth q h
    cases jqte with
    | none => simp [parseQuoteAux] at h
    | some j =>
      obtain ⟨hd, ts, rpt, mentions, -, -, -, hq⟩ := parseQuoteAux_succ_ok_inv _ _ _ _ _ h
      subst hq
      by_cases hts0 : 0 < ts
      · simp only [if_pos hts0]
        cases hst : ctx.store ts with
        | withQuote j1 =>
          cases hp : parseQuoteAux ctx n (some j1) (depth + 1) with
          | error e => simp [hp, chainResult, authorsPresent]
          | ok r =>
            cases r with
            | none => simp [hp, chainResult, authorsPresent]
            | some q1 =>
              have hq1 := ih ctx (some j1) (depth + 1) q1 hp
              simp [hp, chainResult, authorsPresent, hq1]
        | dbError e => simp [chainResult, authorsPresent]
        | notFound => simp [chainResult, authorsPresent]
        | emptyText => simp [chainResult, authorsPresent]
        | badJSON => simp [chainResult, authorsPresent]
        | noQuote => simp [chainResult, authorsPresent]
      · simp [hts0, authorsPresent]

end Sigtop

namespace Sigtop

/-- parseQuoteJSONWithDepth unfolded to the form of the Go source, with the
chain step phrased through findQuoteOfMessage at depth + 1. -/
theorem parseQuoteJSONWithDepth_some (ctx : Context) (j : QuoteJSON) (depth : Nat) :
    parseQuoteJSONWithDepth ctx (some j) depth =
    if maxDepth ≤ depth then .ok none
    else
      match parseTimeSent j.ID with
      | .error e => .error e
      | .ok ts =>
        match resolveAuthor ctx j with
        | .error e => .error e
        | .ok rpt =>
          match ctx.parseMentionJSON j.Mentions with
          | .error e => .error e
          | .ok mentions =>
            .ok (some (.mk (some rpt) ts { Text := j.Text, Mentions := mentions }
              (convertQuoteAttachmentsJSON j.Attachments)
              (if 0 < ts then chainResult (findQuoteOfMessage ctx ts (depth + 1)) else none))) := by
  show parseQuoteAux ctx (maxDepth - depth) (some j) depth = _
  rw [parseQuoteAux_some]
  by_cases hd : maxDepth ≤ depth
  · simp [hd]
  · simp only [if_neg hd]
    have hf : maxDepth - depth = (maxDepth - (depth + 1)) + 1 := by
      simp only [maxDepth] at *
      omega
    rw [hf]
    rfl

/-- The success of a worker run does not depend on the store: the chain
step is the only consumer of the store and its failures are degraded to an
absent link before the final result is assembled. -/
theorem parseQuoteAux_ok_store_indep (ctx : Context) (s : Int → StoreResult) (fuel : Nat)
    (jqte : Option QuoteJSON) (depth : Nat) :
    exceptOk (parseQuoteAux { ctx with store := s } fuel jqte depth)
      = exceptOk (parseQuoteAux ctx fuel jqte depth) := by
  cases jqte with
  | none => simp [parseQuoteAux]
  | some j =>
    rw [parseQuoteAux_some, parseQuoteAux_some]
    by_cases hd : maxDepth ≤ depth
    · simp [hd]
    · simp only [if_neg hd]
      have hra : resolveAuthor { ctx with store := s } j = resolveAuthor ctx j := rfl
      have hpm : ({ ctx with store := s } : Context).parseMentionJSON = ctx.parseMentionJSON := rfl
      rw [hra, hpm]
      cases parseTimeSent j.ID with
      | error e => rfl
      | ok ts =>
        cases resolveAuthor ctx j with
        | error e => rfl
        | ok rpt =>
          cases ctx.parseMentionJSON j.Mentions with
          | error e => rfl
          | ok mentions => rfl

end Sigtop

namespace Sigtop

/-- Test context: recipients resolve to their identifier, mentions parse
to the empty list, and the store has no rows. -/
def testCtx : Context :=
  { recipientFromACI := fun s => .ok ⟨s⟩
    recipientFromPhone := fun s => .ok ⟨s⟩
    parseMentionJSON := fun _ => .ok []
    store := fun _ => .notFound }

/-- A well-formed raw quote with a null ID. -/
def goodQuote : QuoteJSON :=
  { Attachments := [], Author := "", AuthorUUID := "", AuthorACI := "X"
    Mentions := [], ID := none, Text := "hi" }

/-- The quote goodQuote resolves to under testCtx. -/
def q0 : Quote := .mk (some ⟨"X"⟩) (-1) { Text := "hi", Mentions := [] } [] none

/-- A well-formed raw quote referencing timestamp 500. -/
def quote500 : QuoteJSON :=
  { Attachments := [], Author := "", AuthorUUID := "", AuthorACI := "X"
    Mentions := [], ID := some "500", Text := "orig" }

/-- The quote quote500 resolves to under testCtx (the store lookup at 500
misses, so the chain link is absent). -/
def q500 : Quote := .mk (some ⟨"X"⟩) 500 { Text := "orig", Mentions := [] } [] none

/-- A raw quote with no author fields and an ID that is a valid JSON
number but not a 64-bit integer. -/
def noAuthorBadID : QuoteJSON :=
  { Attachments := [], Author := "", AuthorUUID := "", AuthorACI := ""
    Mentions := [], ID := some "3.5", Text := "t" }

/-- A raw quote with no author fields and a null ID. -/
def noAuthorNilID : QuoteJSON :=
  { Attachments := [], Author := "", AuthorUUID := "", AuthorACI := ""
    Mentions := [], ID := none, Text := "t" }

/-- C1: for every raw quote and every store contents (cyclic chain data
included), resolution terminates (it is a total function of this
development) and is absent when entered at the fixed maximum depth 10, and
any chain resolved from depth 0 has at most 10 links. -/
theorem claim_C1_depth_bound (ctx : Context) (jqte : Option QuoteJSON) :
    parseQuoteJSONWithDepth ctx jqte 10 = .ok none ∧
    (∀ q, parseQuoteJSONWithDepth ctx jqte 0 = .ok (some q) → chainLen q ≤ 10) := by
  constructor
  · cases jqte with
    | none => simp [parseQuoteJSONWithDepth, parseQuoteAux]
    | some j =>
      rw [parseQuoteJSONWithDepth_some]
      simp [maxDepth]
  · intro q h
    have hb := parseQuoteAux_chainLen (maxDepth - 0) ctx jqte 0 q h
    simpa [maxDepth] using hb

/-- Witness for C1 at a concrete context and quote. -/
theorem claim_C1_depth_bound_witness :
    parseQuoteJSONWithDepth testCtx (some goodQuote) 10 = .ok none ∧ chainLen q0 ≤ 10 :=
  ⟨(claim_C1_depth_bound testCtx (some goodQuote)).1,
   (claim_C1_depth_bound testCtx (some goodQuote)).2 q0 rfl⟩

/-- C2 counterexample: a quote whose author fields are all empty fails,
but with the ID parse error rather than the "quote without author"
condition, because the source parses the ID field first. -/
theorem claim_C2_counterexample :
    parseQuoteJSON testCtx (some noAuthorBadID) = .error "cannot parse quote ID" ∧
    parseQuoteJSON testCtx (some noAuthorBadID) ≠ .error "quote without author" := by
  refine ⟨rfl, ?_⟩
  intro h
  rw [show parseQuoteJSON testCtx (some noAuthorBadID)
        = Except.error "cannot parse quote ID" from rfl] at h
  simp at h

/-- C2 amended: a quote with all author fields empty always fails; the
failure is the "quote without author" condition when the ID field is
absent or parses as a 64-bit integer, and the ID parse error otherwise. -/
theorem claim_C2_no_author (ctx : Context) (j : QuoteJSON)
    (h1 : j.AuthorACI = "") (h2 : j.AuthorUUID = "") (h3 : j.Author = "") :
    parseQuoteJSON ctx (some j) =
      .error (match j.ID with
        | none => "quote without author"
        | some s =>
          match parseGoInt64 s with
          | some _ => "quote without author"
          | none => "cannot parse quote ID") := by
  show parseQuoteJSONWithDepth ctx (some j) 0 = _
  rw [parseQuoteJSONWithDepth_some]
  have hra : resolveAuthor ctx j = .error "quote without author" := by
    simp [resolveAuthor, h1, h2, h3]
  have hguard : ¬ (maxDepth ≤ 0) := by simp [maxDepth]
  rw [if_neg hguard]
  cases hid : j.ID with
  | none => simp [parseTimeSent, hra]
  | some s =>
    cases hpg : parseGoInt64 s with
    | some v => simp [parseTimeSent, hpg, hra]
    | none => simp [parseTimeSent, hpg]

/-- Witness for the amended C2. -/
theorem claim_C2_no_author_witness :
    parseQuoteJSON testCtx (some noAuthorNilID) = .error "quote without author" :=
  claim_C2_no_author testCtx noAuthorNilID rfl rfl rfl

/-- C7: every quote a successful resolution produces carries a present
author, along the whole resolved chain, so consumers such as the export
conversion may dereference the author unconditionally. -/
theorem claim_C7_author_present (ctx : Context) (jqte : Option QuoteJSON) (depth : Nat)
    (q : Quote) (h : parseQuoteJSONWithDepth ctx jqte depth = .ok (some q)) :
    authorsPresent q = true :=
  parseQuoteAux_authorsPresent (maxDepth - depth) ctx jqte depth q h

/-- Witness for C7 at a concrete context and quote. -/
theorem claim_C7_author_present_witness : authorsPresent q0 = true :=
  claim_C7_author_present testCtx (some goodQuote) 0 q0 rfl

/-- C3: whether resolution of a quote succeeds does not depend on the
store at all; a store miss makes the chain step return an absent quote
without error; and a successfully resolved quote with a positive timestamp
carries exactly the degraded (errors-to-absent) result of the chain step
at that timestamp and depth + 1. -/
theorem claim_C3_chain_step (ctx : Context) (s : Int → StoreResult)
    (jqte : Option QuoteJSON) (depth : Nat) :
    exceptOk (parseQuoteJSONWithDepth { ctx with store := s } jqte depth)
      = exceptOk (parseQuoteJSONWithDepth ctx jqte depth) ∧
    (∀ ts d, ctx.store ts = .notFound → findQuoteOfMessage ctx ts d = .ok none) ∧
    (∀ q, parseQuoteJSONWithDepth ctx jqte depth = .ok (some q) → 0 < q.timeSent →
      q.quotedQuote = chainResult (findQuoteOfMessage ctx q.timeSent (depth + 1))) := by
  refine ⟨parseQuoteAux_ok_store_indep ctx s _ jqte depth, ?_, ?_⟩
  · intro ts d hst
    unfold findQuoteOfMessage
    rw [hst]
  · intro q h hts
    cases jqte with
    | none => simp [parseQuoteJSONWithDepth, parseQuoteAux] at h
    | some j =>
      rw [parseQuoteJSONWithDepth_some] at h
      by_cases hd : maxDepth ≤ depth
      · simp [hd] at h
      · simp only [if_neg hd] at h
        cases hts1 : parseTimeSent j.ID with
        | error e => rw [hts1] at h; exact absurd h (by simp)
        | ok ts =>
          rw [hts1] at h
          cases hra : resolveAuthor ctx j with
          | error e => rw [hra] at h; exact absurd h (by simp)
          | ok rpt =>
            rw [hra] at h
            cases hm : ctx.parseMentionJSON j.Mentions with
            | error e => rw [hm] at h; exact absurd h (by simp)
            | ok mentions =>
              rw [hm] at h
              simp only [Except.ok.injEq, Option.some.injEq] at h
              subst h
              simp only [Quote.timeSent] at hts
              simp [Quote.quotedQuote, Quote.timeSent, hts]

/-- Witness for C3: the spec's own example, a quote referencing timestamp
500 with no message at 500 in the store. -/
theorem claim_C3_chain_step_witness :
    q500.quotedQuote = chainResult (findQuoteOfMessage testCtx 500 1) ∧
    findQuoteOfMessage testCtx 500 1 = .ok none :=
  ⟨(claim_C3_chain_step testCtx testCtx.store (some quote500) 0).2.2 q500 rfl (by decide),
   (claim_C3_chain_step testCtx testCtx.store (some quote500) 0).2.1 500 1 rfl⟩

/-- C4: a missing or null quote ID is the valid negative sentinel -1, not
an error; a present ID that parses as a 64-bit integer becomes the quoted
message's send timestamp; a present unparsable ID is a fatal parse error
for that quote. -/
theorem claim_C4_id_field (ctx : Context) (j : QuoteJSON) :
    (j.ID = none → parseTimeSent j.ID = .ok (-1)) ∧
    (∀ s v, j.ID = some s → parseGoInt64 s = some v → parseTimeSent j.ID = .ok v) ∧
    (∀ s, j.ID = some s → parseGoInt64 s = none →
      parseQuoteJSON ctx (some j) = .error "cannot parse quote ID") ∧
    (∀ q, j.ID = none → parseQuoteJSON ctx (some j) = .ok (some q) → q.timeSent = -1) ∧
    (∀ s v q, j.ID = some s → parseGoInt64 s = some v →
      parseQuoteJSON ctx (some j) = .ok (some q) → q.timeSent = v) := by
  have hguard : ¬ (maxDepth ≤ 0) := by simp [maxDepth]
  refine ⟨?_, ?_, ?_, ?_, ?_⟩
  · intro hid; rw [hid]; rfl
  · intro s v hid hpg; rw [hid]; simp [parseTimeSent, hpg]
  · intro s hid hpg
    show parseQuoteJSONWithDepth ctx (some j) 0 = _
    rw [parseQuoteJSONWithDepth_some, if_neg hguard, hid]
    simp [parseTimeSent, hpg]
  · intro q hid h
    obtain ⟨-, ts, rpt, mentions, hts, -, -, hq⟩ :=
      parseQuoteAux_succ_ok_inv ctx 9 j 0 q h
    rw [hid] at hts
    simp only [parseTimeSent, Except.ok.injEq] at hts
    subst hq
    simp [Quote.timeSent, hts]
  · intro s v q hid hpg h
    obtain ⟨-, ts, rpt, mentions, hts, -, -, hq⟩ :=
      parseQuoteAux_succ_ok_inv ctx 9 j 0 q h
    rw [hid] at hts
    simp only [parseTimeSent, hpg, Except.ok.injEq] at hts
    subst hq
    simp [Quote.timeSent, hts]

/-- Witness for C4: the sentinel, the fatal parse error, and a parsed
numeric ID, each at concrete inputs. -/
theorem claim_C4_id_field_witness :
    parseTimeSent goodQuote.ID = .ok (-1) ∧
    parseQuoteJSON testCtx (some noAuthorBadID) = .error "cannot parse quote ID" ∧
    q500.timeSent = 500 :=
  ⟨(claim_C4_id_field testCtx goodQuote).1 rfl,
   (claim_C4_id_field testCtx noAuthorBadID).2.2.1 "3.5" rfl rfl,
   (claim_C4_id_field testCtx quote500).2.2.2.2 "500" 500 q500 rfl rfl rfl⟩

end Sigtop

namespace Sigtop

/-- Length of the converted edit list. -/
theorem convertEditsFrom_length (total idx : Nat) (l : List Edit) :
    (convertEditsFrom total idx l).length = l.length := by
  induction l generalizing idx with
  | nil => rfl
  | cons e rest ih => simp [convertEditsFrom, ih]

/-- Version of the i-th converted edit record, for a conversion started at
running index idx: total - (idx + i). -/
theorem convertEditsFrom_version (total : Nat) :
    ∀ (l : List Edit) (idx i : Nat), i < l.length →
      ((convertEditsFrom total idx l)[i]?).map jsonEdit.Version
        = some ((total : Int) - ((idx : Int) + (i : Int))) := by
  intro l
  induction l with
  | nil => intro idx i h; simp at h
  | cons e rest ih =>
    intro idx i h
    cases i with
    | zero => simp [convertEditsFrom]
    | succ n =>
      have hn : n < rest.length := by simpa using h
      have := ih (idx + 1) n hn
      simp only [convertEditsFrom, List.getElem?_cons_succ]
      rw [this]
      congr 1
      push_cast
      ring

/-- Field lookup distributes over list concatenation. -/
theorem lookupField_append (xs ys : List (String × JValue)) (k : String) :
    lookupField (xs ++ ys) k =
      match lookupField xs k with
      | some v => some v
      | none => lookupField ys k := by
  induction xs with
  | nil => rfl
  | cons p rest ih =>
    obtain ⟨k1, v⟩ := p
    by_cases hk : k1 = k
    · simp [lookupField, hk]
    · simp [lookupField, hk, ih]

/-- Looking past a head field whose key differs. -/
theorem lookupField_cons_ne (k1 k : String) (v : JValue) (rest : List (String × JValue))
    (h : ¬ k1 = k) : lookupField ((k1, v) :: rest) k = lookupField rest k := by
  simp [lookupField, h]

/-- Looking past an omitempty field whose key differs. -/
theorem lookupField_optField_ne (c : Prop) [Decidable c] (k1 k : String) (v : JValue)
    (rest : List (String × JValue)) (h : ¬ k1 = k) :
    lookupField (optField c k1 v ++ rest) k = lookupField rest k := by
  unfold optField
  split_ifs <;> simp [lookupField, h]

/-- Looking up an omitempty field at its own key: found exactly when not
omitted. -/
theorem lookupField_optField_hit (c : Prop) [Decidable c] (k : String) (v : JValue)
    (rest : List (String × JValue)) (hrest : lookupField rest k = none) :
    lookupField (optField c k v ++ rest) k = if c then none else some v := by
  unfold optField
  split_ifs <;> simp [lookupField, hrest]

/-- A lone omitempty field with a different key holds nothing for k. -/
theorem lookupField_optField_ne_nil (c : Prop) [Decidable c] (k1 k : String) (v : JValue)
    (h : ¬ k1 = k) : lookupField (optField c k1 v) k = none := by
  unfold optField
  split_ifs <;> simp [lookupField, h]

/-- Looking past the quote pointer field for a different key. -/
theorem lookupField_quoteField_ne (o : Option jsonQuote) (k : String)
    (rest : List (String × JValue)) (h : ¬ "quote" = k) :
    lookupField (quoteField o ++ rest) k = lookupField rest k := by
  cases o <;> simp [quoteField, lookupField, h]

/-- Looking up the quote pointer field at its own key: found exactly when
non-nil. -/
theorem lookupField_quoteField_hit (o : Option jsonQuote)
    (rest : List (String × JValue)) (hrest : lookupField rest "quote" = none) :
    lookupField (quoteField o ++ rest) "quote" =
      match o with
      | none => none
      | some q => some (.obj (jsonQuoteFields q)) := by
  cases o <;> simp [quoteField, lookupField, hrest]

/-- The received field of an assembled message record: present with the
Received string exactly when that string is nonempty. -/
theorem lookupField_received (m : jsonMessage) :
    lookupField (jsonMessageFields m) "received" =
      if m.Received = "" then none else some (.str m.Received) := by
  unfold jsonMessageFields
  rw [lookupField_cons_ne _ _ _ _ (by decide), lookupField_cons_ne _ _ _ _ (by decide),
    lookupField_optField_ne _ _ _ _ _ (by decide), lookupField_optField_ne _ _ _ _ _ (by decide),
    lookupField_optField_hit]
  rw [lookupField_optField_ne _ _ _ _ _ (by decide), lookupField_optField_ne _ _ _ _ _ (by decide),
    lookupField_optField_ne _ _ _ _ _ (by decide), lookupField_quoteField_ne _ _ _ (by decide),
    lookupField_optField_ne _ _ _ _ _ (by decide)]
  exact lookupField_optField_ne_nil _ _ _ _ (by decide)

/-- The body field of an assembled message record: present with the Body
string exactly when that string is nonempty. -/
theorem lookupField_body (m : jsonMessage) :
    lookupField (jsonMessageFields m) "body" =
      if m.Body = "" then none else some (.str m.Body) := by
  unfold jsonMessageFields
  rw [lookupField_cons_ne _ _ _ _ (by decide), lookupField_cons_ne _ _ _ _ (by decide),
    lookupField_optField_ne _ _ _ _ _ (by decide), lookupField_optField_ne _ _ _ _ _ (by decide),
    lookupField_optField_ne _ _ _ _ _ (by decide), lookupField_optField_hit]
  rw [lookupField_optField_ne _ _ _ _ _ (by decide), lookupField_optField_ne _ _ _ _ _ (by decide),
    lookupField_quoteField_ne _ _ _ (by decide), lookupField_optField_ne _ _ _ _ _ (by decide)]
  exact lookupField_optField_ne_nil _ _ _ _ (by decide)

/-- The quote field of an assembled message record: present exactly when
the converted quote pointer is non-nil. -/
theorem lookupField_quote (m : jsonMessage) :
    lookupField (jsonMessageFields m) "quote" =
      match m.Quote with
      | none => none
      | some q => some (.obj (jsonQuoteFields q)) := by
  unfold jsonMessageFields
  rw [lookupField_cons_ne _ _ _ _ (by decide), lookupField_cons_ne _ _ _ _ (by decide),
    lookupField_optField_ne _ _ _ _ _ (by decide), lookupField_optField_ne _ _ _ _ _ (by decide),
    lookupField_optField_ne _ _ _ _ _ (by decide), lookupField_optField_ne _ _ _ _ _ (by decide),
    lookupField_optField_ne _ _ _ _ _ (by decide), lookupField_optField_ne _ _ _ _ _ (by decide),
    lookupField_quoteField_hit]
  rw [lookupField_optField_ne _ _ _ _ _ (by decide)]
  exact lookupField_optField_ne_nil _ _ _ _ (by decide)

/-- The count field of an assembled group change record: present with the
Count value exactly when that value is nonzero. -/
theorem lookupField_count (g : jsonGroupV2Change) :
    lookupField (jsonGroupV2ChangeFields g) "count" =
      if g.Count = 0 then none else some (.num g.Count) := by
  unfold jsonGroupV2ChangeFields
  rw [lookupField_cons_ne _ _ _ _ (by decide), lookupField_optField_ne _ _ _ _ _ (by decide),
    lookupField_optField_ne _ _ _ _ _ (by decide), lookupField_optField_hit]
  rw [lookupField_optField_ne _ _ _ _ _ (by decide)]
  exact lookupField_optField_ne_nil _ _ _ _ (by decide)

end Sigtop

namespace Sigtop

/-- C5: a message with N edits (N at least 1) yields exactly N edit
records, the i-th (0-based, in the edit list's given order) carrying
version N - i, so versions run N, N-1, ..., 1. -/
theorem claim_C5_edit_versions (selfName : String) (msg : Message)
    (_h : 1 ≤ msg.Edits.length) :
    (convertMessage selfName msg).Edits.length = msg.Edits.length ∧
    ∀ i, i < msg.Edits.length →
      (((convertMessage selfName msg).Edits)[i]?).map jsonEdit.Version
        = some ((msg.Edits.length : Int) - (i : Int)) := by
  constructor
  · simp [convertMessage, convertEdits, convertEditsFrom_length]
  · intro i hi
    have hv := convertEditsFrom_version msg.Edits.length msg.Edits 0 i hi
    simp only [convertMessage, convertEdits]
    rw [hv]
    norm_num

/-- C6: the top-level body and quote of an export record are the live ones
exactly when the message has no edits; with edits they are empty and
absent from the assembled record. -/
theorem claim_C6_body_quote_vs_edits (selfName : String) (msg : Message) :
    (msg.Edits = [] →
      (convertMessage selfName msg).Body = msg.Body.Text ∧
      (convertMessage selfName msg).Quote = convertQuote msg.Quote) ∧
    (msg.Edits ≠ [] →
      (convertMessage selfName msg).Body = "" ∧
      (convertMessage selfName msg).Quote = none ∧
      lookupField (jsonMessageFields (convertMessage selfName msg)) "body" = none ∧
      lookupField (jsonMessageFields (convertMessage selfName msg)) "quote" = none) := by
  constructor
  · intro h
    simp [convertMessage, h]
  · intro h
    have hlen : msg.Edits.length ≠ 0 := by
      simpa [List.length_eq_zero] using h
    have hb : (convertMessage selfName msg).Body = "" := by
      simp [convertMessage, hlen]
    have hq : (convertMessage selfName msg).Quote = none := by
      simp [convertMessage, hlen]
    refine ⟨hb, hq, ?_, ?_⟩
    · rw [lookupField_body, hb]
      simp
    · rw [lookupField_quote, hq]

/-- C8: a zero count is omitted from the emitted group change record; a
positive count is emitted as exactly that value. -/
theorem claim_C8_group_change_count (gc : GroupV2Change) :
    (gc.Count = 0 →
      lookupField (jsonGroupV2ChangeFields (convertGroupV2Change gc)) "count" = none) ∧
    (0 < gc.Count →
      lookupField (jsonGroupV2ChangeFields (convertGroupV2Change gc)) "count"
        = some (.num gc.Count)) := by
  constructor
  · intro h
    rw [lookupField_count]
    simp [convertGroupV2Change, h]
  · intro h
    have hne : gc.Count ≠ 0 := by omega
    rw [lookupField_count]
    simp [convertGroupV2Change, hne]

/-- C10: an outgoing message never emits the received field, whatever its
received timestamp; the field is emitted only for a non-outgoing message
with a nonzero received timestamp. -/
theorem claim_C10_received_field (selfName : String) (msg : Message) :
    (msg.outgoing = true →
      lookupField (jsonMessageFields (convertMessage selfName msg)) "received" = none) ∧
    (lookupField (jsonMessageFields (convertMessage selfName msg)) "received" ≠ none →
      msg.outgoing = false ∧ msg.TimeRecv ≠ 0) := by
  constructor
  · intro h
    rw [lookupField_received]
    have : (convertMessage selfName msg).Received = "" := by
      simp [convertMessage, h]
    simp [this]
  · intro h
    rw [lookupField_received] at h
    by_cases hr : (convertMessage selfName msg).Received = ""
    · simp [hr] at h
    · by_cases hc : msg.outgoing = false ∧ msg.TimeRecv ≠ 0
      · exact hc
      · exfalso
        apply hr
        simp only [convertMessage]
        rw [if_neg hc]

end Sigtop

namespace Sigtop

/-- An edit snapshot fixture. -/
def editA : Edit :=
  { TimeEdit := 0, Body := { Text := "a", Mentions := [] }, Attachments := [], Quote := none }

/-- Another edit snapshot fixture. -/
def editB : Edit :=
  { TimeEdit := 0, Body := { Text := "b", Mentions := [] }, Attachments := [], Quote := none }

/-- A plain incoming message fixture with no edits. -/
def baseMsg : Message :=
  { Typ := "incoming", outgoing := false, Source := some ⟨"Ann"⟩, Conversation := ⟨"Conv"⟩
    TimeSent := 1000, TimeRecv := 0, Body := { Text := "live", Mentions := [] }
    Attachments := [], Reactions := [], Edits := [], GroupV2Change := [], Quote := none }

/-- The base message with two edits. -/
def msgTwoEdits : Message := { baseMsg with Edits := [editA, editB] }

/-- The base message outgoing, with a nonzero received timestamp. -/
def msgOutRecv : Message := { baseMsg with outgoing := true, TimeRecv := 7 }

/-- The base message with a nonzero received timestamp. -/
def msgInRecv : Message := { baseMsg with TimeRecv := 500 }

/-- A group change fixture with zero count. -/
def gcZero : GroupV2Change :=
  { Typ := "member-add", Who := none, Inviter := none, Count := 0
    NewTitle := "", Description := "" }

/-- A group change fixture with count two. -/
def gcTwo : GroupV2Change := { gcZero with Count := 2 }

/-- Witness for C5 on a message with two edits: versions 2 then 1. -/
theorem claim_C5_edit_versions_witness :
    (convertMessage "You" msgTwoEdits).Edits.length = msgTwoEdits.Edits.length ∧
    (((convertMessage "You" msgTwoEdits).Edits)[0]?).map jsonEdit.Version
      = some ((msgTwoEdits.Edits.length : Int) - ((0 : Nat) : Int)) ∧
    (((convertMessage "You" msgTwoEdits).Edits)[1]?).map jsonEdit.Version
      = some ((msgTwoEdits.Edits.length : Int) - ((1 : Nat) : Int)) :=
  ⟨(claim_C5_edit_versions "You" msgTwoEdits (by decide)).1,
   (claim_C5_edit_versions "You" msgTwoEdits (by decide)).2 0 (by decide),
   (claim_C5_edit_versions "You" msgTwoEdits (by decide)).2 1 (by decide)⟩

/-- Witness for C6 on a message without and a message with edits. -/
theorem claim_C6_body_quote_vs_edits_witness :
    ((convertMessage "You" baseMsg).Body = baseMsg.Body.Text ∧
      (convertMessage "You" baseMsg).Quote = convertQuote baseMsg.Quote) ∧
    ((convertMessage "You" msgTwoEdits).Body = "" ∧
      (convertMessage "You" msgTwoEdits).Quote = none ∧
      lookupField (jsonMessageFields (convertMessage "You" msgTwoEdits)) "body" = none ∧
      lookupField (jsonMessageFields (convertMessage "You" msgTwoEdits)) "quote" = none) :=
  ⟨(claim_C6_body_quote_vs_edits "You" baseMsg).1 rfl,
   (claim_C6_body_quote_vs_edits "You" msgTwoEdits).2 (List.cons_ne_nil _ _)⟩

/-- Witness for C8 at counts zero and two. -/
theorem claim_C8_group_change_count_witness :
    lookupField (jsonGroupV2ChangeFields (convertGroupV2Change gcZero)) "count" = none ∧
    lookupField (jsonGroupV2ChangeFields (convertGroupV2Change gcTwo)) "count"
      = some (.num gcTwo.Count) :=
  ⟨(claim_C8_group_change_count gcZero).1 rfl,
   (claim_C8_group_change_count gcTwo).2 (by decide)⟩

/-- Witness for C10: an outgoing message with nonzero received timestamp
omits the field; a message that emits the field is incoming with nonzero
received timestamp. -/
theorem claim_C10_received_field_witness :
    lookupField (jsonMessageFields (convertMessage "You" msgOutRecv)) "received" = none ∧
    (msgInRecv.outgoing = false ∧ msgInRecv.TimeRecv ≠ 0) :=
  ⟨(claim_C10_received_field "You" msgOutRecv).1 rfl,
   (claim_C10_received_field "You" msgInRecv).2 (by
     rw [show lookupField (jsonMessageFields (convertMessage "You" msgInRecv)) "received"
           = some (JValue.str (formatTime 500)) from rfl]
     simp)⟩

/-- Characters that need no escaping are emitted verbatim. -/
theorem escapeChar_verbatim (c : Char) (h : needsEscape c = false) :
    escapeChar c = String.mk [c] := by
  simp only [needsEscape, Bool.or_eq_false_iff, decide_eq_false_iff_not] at h
  obtain ⟨⟨⟨⟨h1, h2⟩, h3⟩, h4⟩, h5⟩ := h
  unfold escapeChar
  rw [if_neg h1, if_neg h2,
    if_neg (fun hc => h3 (by rw [hc]; decide)),
    if_neg (fun hc => h3 (by rw [hc]; decide)),
    if_neg (fun hc => h3 (by rw [hc]; decide)),
    if_neg h3, if_neg h4, if_neg h5]

/-- A character sequence free of escapes is emitted verbatim. -/
theorem escapeChars_verbatim :
    ∀ l : List Char, (∀ c ∈ l, needsEscape c = false) → escapeChars l = String.mk l := by
  intro l
  induction l with
  | nil => intro _; rfl
  | cons c rest ih =>
    intro h
    have hc := h c (by simp)
    have hr := ih fun x hx => h x (by simp [hx])
    simp only [escapeChars]
    rw [escapeChar_verbatim c hc, hr]
    rfl

end Sigtop

namespace Sigtop

/-- C9: serialization of the export model is deterministic (a pure
function of the model); string values render through escapeString; the
HTML-sensitive characters are not transformed, and any string free of the
JSON-mandated escapes appears verbatim between its quotes; indentation is
exactly two spaces per nesting level. -/
theorem claim_C9_serialization :
    (∀ e, renderExport e = renderExport e) ∧
    (∀ s lvl, render (.str s) lvl = escapeString s) ∧
    (escapeChar '<' = "<" ∧ escapeChar '>' = ">" ∧ escapeChar '&' = "&") ∧
    (∀ s : String, (∀ c ∈ s.data, needsEscape c = false) →
      escapeString s = "\"" ++ s ++ "\"") ∧
    (∀ n, (indentOf n).length = 2 * n) := by
  refine ⟨fun e => rfl, fun s lvl => by rw [render], ⟨rfl, rfl, rfl⟩, ?_, ?_⟩
  · intro s h
    unfold escapeString
    rw [escapeChars_verbatim s.data h]
  · intro n
    induction n with
    | zero => rfl
    | succ m ih =>
      have hu : indentOf (m + 1) = "  " ++ indentOf m := rfl
      rw [hu, String.length_append, ih, show ("  " : String).length = 2 from rfl]
      omega

/-- Witness for C9 at a concrete string and nesting level. -/
theorem claim_C9_serialization_witness :
    escapeString "hello<&>" = "\"" ++ "hello<&>" ++ "\"" ∧ (indentOf 3).length = 2 * 3 :=
  ⟨claim_C9_serialization.2.2.2.1 "hello<&>" (by decide),
   claim_C9_serialization.2.2.2.2 3⟩

end Sigtop
